import Mathlib

/-!
Verification development for the uml_analyzer repository: a shallow
embedding of the graph model (`src/graph_builder.py`), the analyzer
(`src/analyzer.py`) and the view filter (`src/filter.py`), together with
theorems settling the behavioural claims about them.

Python dictionaries are modelled as insertion-ordered association lists or
as update functions; Python sets become `Finset String`; Python floats
become exact rationals (`ℚ`); raisable exceptions become `Except String`.
NetworkX library functions that the repository merely calls (pagerank,
betweenness centrality, degree centrality, python-louvain best_partition)
are opaque parameters bundled in `ExternalFns`; everything written in the
repository itself is translated directly.
-/

/-- Element record handed to the graph builder (one per class/interface).
The field `nspace` renders the Python attribute `namespace`, which is a
reserved word in Lean. -/
structure ClassElement where
  name : String
  full_name : String
  display_name : String
  nspace : String
  type : String
  is_abstract : Bool
  is_template : Bool
  member_count : Nat
  method_count : Nat
  complexity_score : ℚ
  deriving DecidableEq

/-- Relationship record: directed, with kind, optional label and access. -/
structure Relationship where
  source : String
  destination : String
  type : String
  label : Option String
  access : Option String
  deriving DecidableEq

/-- Parsed diagram data: `elements` is the id→element dictionary
(insertion-ordered association list with unique ids), `relationships` the
relationship list. -/
structure DiagramData where
  elements : List (String × ClassElement)
  relationships : List Relationship
  deriving DecidableEq

/-- Node attribute dictionary stored by `GraphBuilder._build_graph`'s
`add_node` call (mirrors the keyword arguments, `element` included). -/
structure NodeAttrs where
  name : String
  full_name : String
  display_name : String
  nspace : String
  type : String
  is_abstract : Bool
  is_template : Bool
  member_count : Nat
  method_count : Nat
  complexity : ℚ
  element : ClassElement
  deriving DecidableEq

/-- Edge attribute dictionary stored by the `add_edge` call. -/
structure EdgeAttrs where
  type : String
  label : Option String
  access : Option String
  weight : ℚ
  relationship : Relationship
  deriving DecidableEq

/-- Shallow model of `networkx.DiGraph`: node dictionary (insertion order
plus attribute lookup) and edge dictionary (insertion order of the ordered
pairs plus attribute lookup).  Re-adding a node or edge overwrites the
attributes and keeps the original position, exactly as a Python dict. -/
structure NxDiGraph where
  nodeList : List String
  nodeAttr : String → Option NodeAttrs
  edgeList : List (String × String)
  edgeAttr : String → String → Option EdgeAttrs

def nxEmpty : NxDiGraph :=
  { nodeList := [], nodeAttr := fun _ => none
    edgeList := [], edgeAttr := fun _ _ => none }

/-- `DiGraph.add_node` with attributes: appends the id if new, overwrites
the attribute dict. -/
def addNode (g : NxDiGraph) (nodeId : String) (a : NodeAttrs) : NxDiGraph :=
  { g with
    nodeList := if nodeId ∈ g.nodeList then g.nodeList else g.nodeList ++ [nodeId]
    nodeAttr := fun x => if x = nodeId then some a else g.nodeAttr x }

/-- `add_edge` silently registers a missing endpoint as a bare node
(networkx behaviour); its attribute dict stays absent. -/
def addEndpoint (g : NxDiGraph) (nodeId : String) : NxDiGraph :=
  { g with
    nodeList := if nodeId ∈ g.nodeList then g.nodeList else g.nodeList ++ [nodeId] }

/-- `DiGraph.add_edge` with attributes. -/
def addEdge (g : NxDiGraph) (s d : String) (a : EdgeAttrs) : NxDiGraph :=
  let g1 := addEndpoint (addEndpoint g s) d
  { g1 with
    edgeList := if (s, d) ∈ g1.edgeList then g1.edgeList else g1.edgeList ++ [(s, d)]
    edgeAttr := fun x y => if x = s ∧ y = d then some a else g1.edgeAttr x y }

/-- `GraphBuilder._get_relationship_weight`: fixed weight lookup table,
default 1.0 for unknown kinds (2.0, 1.8, 1.5, 1.2, 0.8 as exact
rationals). -/
def getRelationshipWeight (relType : String) : ℚ :=
  if relType = "extension" then 2
  else if relType = "composition" then 9/5
  else if relType = "aggregation" then 3/2
  else if relType = "association" then 6/5
  else if relType = "dependency" then 4/5
  else 1

/-- Attribute dictionary built by the `add_node` call in `_build_graph`. -/
def nodeAttrsOf (elem : ClassElement) : NodeAttrs :=
  { name := elem.name, full_name := elem.full_name
    display_name := elem.display_name, nspace := elem.nspace
    type := elem.type, is_abstract := elem.is_abstract
    is_template := elem.is_template, member_count := elem.member_count
    method_count := elem.method_count, complexity := elem.complexity_score
    element := elem }

/-- The node-adding first loop of `GraphBuilder._build_graph`. -/
def addAllNodes (data : DiagramData) : NxDiGraph :=
  data.elements.foldl (fun g pe => addNode g pe.1 (nodeAttrsOf pe.2)) nxEmpty

/-- One iteration of the edge-adding second loop of `_build_graph`: the
edge is added only when both endpoints are already nodes of the graph. -/
def addRelationship (g : NxDiGraph) (rel : Relationship) : NxDiGraph :=
  if rel.source ∈ g.nodeList ∧ rel.destination ∈ g.nodeList then
    addEdge g rel.source rel.destination
      { type := rel.type, label := rel.label, access := rel.access
        weight := getRelationshipWeight rel.type, relationship := rel }
  else g

/-- `GraphBuilder._build_graph` run at construction time. -/
def buildGraph (data : DiagramData) : NxDiGraph :=
  data.relationships.foldl addRelationship (addAllNodes data)

/-- Predecessor set of a node: sources of edges pointing at it. -/
def predecessorsOf (g : NxDiGraph) (nodeId : String) : Finset String :=
  ((g.edgeList.filter (fun p => p.2 = nodeId)).map (fun p => p.1)).toFinset

/-- Successor set of a node: destinations of edges out of it. -/
def successorsOf (g : NxDiGraph) (nodeId : String) : Finset String :=
  ((g.edgeList.filter (fun p => p.1 = nodeId)).map (fun p => p.2)).toFinset

/-- `GraphBuilder.get_neighbors`: empty set for an unknown node, else
predecessors for "in", successors for "out", their union for anything
else (the final `else` branch of the Python code). -/
def getNeighbors (g : NxDiGraph) (nodeId : String) (direction : String) : Finset String :=
  if nodeId ∉ g.nodeList then ∅
  else if direction = "in" then predecessorsOf g nodeId
  else if direction = "out" then successorsOf g nodeId
  else predecessorsOf g nodeId ∪ successorsOf g nodeId

/-- The `for _ in range(max_hops)` loop of `get_nodes_within_hops`:
each round collects the not-yet-visited neighbors of the current layer,
stops early when that set is empty. -/
def hopsLoop (g : NxDiGraph) (direction : String) :
    Nat → Finset String → Finset String → Finset String
  | 0, visited, _ => visited
  | maxHops + 1, visited, currentLayer =>
    let nextLayer := (currentLayer.biUnion (fun n => getNeighbors g n direction)) \ visited
    if nextLayer = ∅ then visited
    else hopsLoop g direction maxHops (visited ∪ nextLayer) nextLayer

/-- `GraphBuilder.get_nodes_within_hops`: empty set for an unknown
center, otherwise breadth-first expansion from `{center}`. -/
def getNodesWithinHops (g : NxDiGraph) (centerNode : String) (maxHops : Nat)
    (direction : String) : Finset String :=
  if centerNode ∉ g.nodeList then ∅
  else hopsLoop g direction maxHops {centerNode} {centerNode}

/-- Python `str.startswith`, rendered structurally on the character
list. -/
def strStartsWith (s pat : String) : Bool :=
  pat.data.isPrefixOf s.data

/-- Python `str.replace` for a non-empty pattern: replace non-overlapping
occurrences left to right.  The fuel argument (instantiated with the
length of the character list) keeps the recursion structural. -/
def strReplaceFuel (pat repl : List Char) : Nat → List Char → List Char
  | 0, l => l
  | _ + 1, [] => []
  | fuel + 1, c :: rest =>
    if pat ≠ [] ∧ pat.isPrefixOf (c :: rest) then
      repl ++ strReplaceFuel pat repl fuel (List.drop (pat.length - 1) rest)
    else c :: strReplaceFuel pat repl fuel rest

/-- Python `str.replace` (for the non-empty patterns the sources use). -/
def strReplace (s pat repl : String) : String :=
  ⟨strReplaceFuel pat.data repl.data s.data.length s.data⟩

/-- `GraphBuilder.get_nodes_by_namespace`: nodes whose namespace string
starts with the given pattern. -/
def getNodesByNamespace (g : NxDiGraph) (pattern : String) : Finset String :=
  (g.nodeList.filter (fun nodeId =>
    strStartsWith
      (match g.nodeAttr nodeId with
       | some a => a.nspace
       | none => "") pattern)).toFinset

/-- `attrs.get("namespace", "")` on a node of the graph. -/
def nodeNamespace (g : NxDiGraph) (nodeId : String) : String :=
  match g.nodeAttr nodeId with
  | some a => a.nspace
  | none => ""

/-- `attrs.get("complexity", 0)` on a node of the graph. -/
def nodeComplexity (g : NxDiGraph) (nodeId : String) : ℚ :=
  match g.nodeAttr nodeId with
  | some a => a.complexity
  | none => 0

/-- In-degree of a node (number of edges pointing at it). -/
def inDegreeOf (g : NxDiGraph) (nodeId : String) : Nat :=
  (g.edgeList.filter (fun p => p.2 = nodeId)).length

/-- Out-degree of a node (number of edges out of it). -/
def outDegreeOf (g : NxDiGraph) (nodeId : String) : Nat :=
  (g.edgeList.filter (fun p => p.1 = nodeId)).length

/-- `DiGraph.degree`: in-degree plus out-degree. -/
def degreeOf (g : NxDiGraph) (nodeId : String) : Nat :=
  inDegreeOf g nodeId + outDegreeOf g nodeId

/-- `GraphBuilder.get_subgraph_by_nodes`: keep only ids present in both
the input set and the graph, and edges whose endpoints both survive. -/
def getSubgraphByNodes (g : NxDiGraph) (nodeIds : Finset String) : NxDiGraph :=
  { nodeList := g.nodeList.filter (fun x => x ∈ nodeIds)
    nodeAttr := fun x => if x ∈ nodeIds ∧ x ∈ g.nodeList then g.nodeAttr x else none
    edgeList := g.edgeList.filter
      (fun p => (p.1 ∈ nodeIds ∧ p.1 ∈ g.nodeList) ∧ (p.2 ∈ nodeIds ∧ p.2 ∈ g.nodeList))
    edgeAttr := fun x y =>
      if (x ∈ nodeIds ∧ x ∈ g.nodeList) ∧ (y ∈ nodeIds ∧ y ∈ g.nodeList) then
        g.edgeAttr x y
      else none }

/-- `networkx.density` on a directed graph: `m / (n*(n-1))`, and `0`
when there are no edges or at most one node. -/
def nxDensity (g : NxDiGraph) : ℚ :=
  let n := g.nodeList.length
  let m := g.edgeList.length
  if m = 0 ∨ n ≤ 1 then 0 else (m : ℚ) / ((n : ℚ) * ((n : ℚ) - 1))

/-- `DiGraph.to_undirected`: same nodes, edge pairs symmetrized (an
undirected graph rendered as a symmetric digraph); it is consumed only by
the opaque community-detection parameter. -/
def toUndirected (g : NxDiGraph) : NxDiGraph :=
  { nodeList := g.nodeList
    nodeAttr := g.nodeAttr
    edgeList := g.edgeList ++
      (g.edgeList.filter (fun p => (p.2, p.1) ∉ g.edgeList)).map (fun p => (p.2, p.1))
    edgeAttr := fun x y =>
      match g.edgeAttr x y with
      | some a => some a
      | none => g.edgeAttr y x }

/-- Library functions the analyzer delegates to but that live outside the
repository (networkx / python-louvain / numpy).  They are opaque
parameters of the embedding: every theorem below holds for an arbitrary
choice of them.  Score dictionaries are insertion-ordered association
lists; a fallible call returns `Except String`. -/
structure ExternalFns where
  pagerankImpl : NxDiGraph → ℚ → Except String (List (String × ℚ))
  betweennessImpl : NxDiGraph → Except String (List (String × ℚ))
  degreeCentralityImpl : NxDiGraph → List (String × ℚ)
  bestPartitionImpl : NxDiGraph → ℚ → Except String (List (String × Int))

/-- `GraphAnalyzer` instance state: the graph plus the three lazily
filled caches set to `None` by `__init__`. -/
structure GraphAnalyzer where
  graph : NxDiGraph
  pagerankCache : Option (List (String × ℚ))
  betweennessCache : Option (List (String × ℚ))
  communitiesCache : Option (List (String × Int))

/-- `GraphAnalyzer(graph)` constructor. -/
def mkAnalyzer (g : NxDiGraph) : GraphAnalyzer :=
  { graph := g, pagerankCache := none, betweennessCache := none
    communitiesCache := none }

/-- `GraphAnalyzer.calculate_pagerank`: compute `nx.pagerank(graph,
alpha)` only when the cache is still `None`, then always answer from the
cache. -/
def calculatePagerank (ext : ExternalFns) (a : GraphAnalyzer) (alpha : ℚ) :
    Except String (GraphAnalyzer × List (String × ℚ)) :=
  match a.pagerankCache with
  | some c => .ok (a, c)
  | none =>
    match ext.pagerankImpl a.graph alpha with
    | .error e => .error e
    | .ok c => .ok ({ a with pagerankCache := some c }, c)

/-- `GraphAnalyzer.calculate_betweenness_centrality` with its cache. -/
def calculateBetweennessCentrality (ext : ExternalFns) (a : GraphAnalyzer) :
    Except String (GraphAnalyzer × List (String × ℚ)) :=
  match a.betweennessCache with
  | some c => .ok (a, c)
  | none =>
    match ext.betweennessImpl a.graph with
    | .error e => .error e
    | .ok c => .ok ({ a with betweennessCache := some c }, c)

/-- `GraphAnalyzer.detect_communities`: Louvain best_partition on the
undirected collapse of the graph, computed only when the cache is still
`None`, then always answered from the cache (the later `resolution`
argument is ignored on a cache hit). -/
def detectCommunities (ext : ExternalFns) (a : GraphAnalyzer) (resolution : ℚ) :
    Except String (GraphAnalyzer × List (String × Int)) :=
  match a.communitiesCache with
  | some c => .ok (a, c)
  | none =>
    match ext.bestPartitionImpl (toUndirected a.graph) resolution with
    | .error e => .error e
    | .ok c => .ok ({ a with communitiesCache := some c }, c)

/-- Stable insertion of one scored node into a descending-sorted list:
equal scores keep the earlier element first, matching Python's stable
`sorted(..., reverse=True)`. -/
def insertScoreDesc (x : String × ℚ) : List (String × ℚ) → List (String × ℚ)
  | [] => [x]
  | y :: ys => if y.2 < x.2 then x :: y :: ys else y :: insertScoreDesc x ys

/-- `sorted(scores.items(), key=lambda x: x[1], reverse=True)`. -/
def sortScoresDesc (scores : List (String × ℚ)) : List (String × ℚ) :=
  scores.foldl (fun acc x => insertScoreDesc x acc) []

/-- `GraphAnalyzer.get_top_nodes_by_metric`: string dispatch over the
metric name (an unknown name raises `ValueError`), then the top `n`
entries of the descending sort.  `calculate_pagerank` is invoked with its
default `alpha = 0.85`. -/
def getTopNodesByMetric (ext : ExternalFns) (a : GraphAnalyzer)
    (metric : String) (topN : Nat) :
    Except String (GraphAnalyzer × List (String × ℚ)) := do
  let (a', scores) ←
    if metric = "pagerank" then calculatePagerank ext a (17/20)
    else if metric = "betweenness" then calculateBetweennessCentrality ext a
    else if metric = "degree" then .ok (a, ext.degreeCentralityImpl a.graph)
    else if metric = "in_degree" then
      .ok (a, a.graph.nodeList.map (fun n => (n, (inDegreeOf a.graph n : ℚ))))
    else if metric = "out_degree" then
      .ok (a, a.graph.nodeList.map (fun n => (n, (outDegreeOf a.graph n : ℚ))))
    else .error ("Unknown metric: " ++ metric)
  .ok (a', (sortScoresDesc scores).take topN)

/-- `GraphAnalyzer.find_hotspots`: nodes whose total degree reaches
`min_degree` AND whose complexity attribute reaches `min_complexity`. -/
def findHotspots (a : GraphAnalyzer) (minDegree : Nat) (minComplexity : Int) :
    Finset String :=
  (a.graph.nodeList.filter (fun nodeId =>
    minDegree ≤ degreeOf a.graph nodeId ∧
      (minComplexity : ℚ) ≤ nodeComplexity a.graph nodeId)).toFinset

/-- Per-namespace entry of `GraphAnalyzer.analyze_namespace_coupling`. -/
structure NamespaceCouplingStats where
  node_count : Nat
  internal_edges : Nat
  external_edges : Nat
  cohesion : ℚ
  coupling : ℚ
  deriving DecidableEq

/-- Edges with both endpoint namespaces equal to `ns` (the
`internal_edges` counter of the edge loop). -/
def namespaceInternalEdges (g : NxDiGraph) (ns : String) : Nat :=
  (g.edgeList.filter (fun p =>
    nodeNamespace g p.1 = ns ∧ nodeNamespace g p.2 = ns)).length

/-- Edges leaving `ns` for another namespace (the `external_edges_out`
counter). -/
def namespaceExternalOut (g : NxDiGraph) (ns : String) : Nat :=
  (g.edgeList.filter (fun p =>
    nodeNamespace g p.1 = ns ∧ ¬nodeNamespace g p.2 = ns)).length

/-- Edges entering `ns` from another namespace (the `external_edges_in`
counter). -/
def namespaceExternalIn (g : NxDiGraph) (ns : String) : Nat :=
  (g.edgeList.filter (fun p =>
    ¬nodeNamespace g p.1 = ns ∧ nodeNamespace g p.2 = ns)).length

/-- Nodes whose namespace attribute is `ns` (the per-namespace `nodes`
set of the node loop). -/
def namespaceNodes (g : NxDiGraph) (ns : String) : List String :=
  g.nodeList.filter (fun nodeId => nodeNamespace g nodeId = ns)

/-- `GraphAnalyzer.analyze_namespace_coupling`, presented as the entry
the result dictionary holds under key `ns`: cohesion is the internal
share of incident edges (0 when there are none), coupling the external
edges per node (0 when the namespace has no nodes). -/
def analyzeNamespaceCoupling (g : NxDiGraph) (ns : String) : NamespaceCouplingStats :=
  let node_count := (namespaceNodes g ns).length
  let internal := namespaceInternalEdges g ns
  let external := namespaceExternalOut g ns + namespaceExternalIn g ns
  let total := internal + external
  { node_count := node_count
    internal_edges := internal
    external_edges := external
    cohesion := if 0 < total then (internal : ℚ) / (total : ℚ) else 0
    coupling := if 0 < node_count then (external : ℚ) / (node_count : ℚ) else 0 }

/-- The `ViewStrategy` enumeration of `src/filter.py` (`nspace` stands
for the Python member `NAMESPACE`). -/
inductive ViewStrategy where
  | context
  | nspace
  | community
  | hotspot
  | importance
  | layer
  deriving DecidableEq

/-- `list(ViewStrategy)`: all members in declaration order. -/
def ViewStrategy.all : List ViewStrategy :=
  [.context, .nspace, .community, .hotspot, .importance, .layer]

/-- The `self.views` name→node-set dictionary of `DiagramFilter`. -/
def ViewStore : Type := String → Option (Finset String)

/-- The empty view store of a fresh `DiagramFilter`. -/
def emptyViews : ViewStore := fun _ => none

/-- `self.views[name] = nodes`. -/
def storeView (v : ViewStore) (viewName : String) (nodes : Finset String) : ViewStore :=
  fun x => if x = viewName then some nodes else v x

/-- `DiagramFilter` instance state: the parsed data, the builder's graph,
the analyzer and the stored views. -/
structure DiagramFilter where
  data : DiagramData
  builder : NxDiGraph
  analyzer : GraphAnalyzer
  views : ViewStore

/-- Modelled from the spec: `DiagramData.get_namespaces` lives in the
excluded parsing collaborator (`src/parser.py`, not part of the core
sources); per §4.3 it yields "all namespaces discovered in the data",
rendered here as the namespaces of the elements in first-appearance
order. -/
def DiagramData.getNamespaces (d : DiagramData) : List String :=
  (d.elements.map (fun pe => pe.2.nspace)).dedup

/-- `DiagramFilter.create_namespace_views` (defaults: all namespaces,
`min_nodes = 2`): one view per namespace whose prefix-matched node set is
large enough, stored under `namespace_<ns with :: replaced by _>`;
returns the created entries. -/
def createNamespaceViews (f : DiagramFilter) (namespaceList : Option (List String))
    (minNodes : Nat) : DiagramFilter × List (String × Finset String) :=
  let nsList := match namespaceList with
    | none => f.data.getNamespaces
    | some l => l
  nsList.foldl (fun acc ns =>
    let nodes := getNodesByNamespace f.builder ns
    if minNodes ≤ nodes.card then
      let viewName := "namespace_" ++ strReplace ns "::" "_"
      ({ acc.1 with views := storeView acc.1.views viewName nodes },
        acc.2 ++ [(viewName, nodes)])
    else acc) (f, [])

/-- `DiagramFilter.create_community_views` (defaults:
`min_community_size = 3`, `resolution = 1.0`): detect communities (which
may fail inside the external Louvain call, before any view is stored),
group members by community id, store each large enough group under
`community_<id>`. -/
def createCommunityViews (ext : ExternalFns) (f : DiagramFilter)
    (minCommunitySize : Nat) (resolution : ℚ) :
    Except String (DiagramFilter × List (String × Finset String)) := do
  let (a1, _) ← detectCommunities ext f.analyzer resolution
  let (a2, communities) ← detectCommunities ext a1 1
  let commIds := (communities.map (fun p => p.2)).dedup
  let f2 := { f with analyzer := a2 }
  .ok (commIds.foldl (fun acc commId =>
    let members := ((communities.filter (fun p => p.2 = commId)).map
      (fun p => p.1)).toFinset
    if minCommunitySize ≤ members.card then
      let viewName := "community_" ++ toString commId
      ({ acc.1 with views := storeView acc.1.views viewName members },
        acc.2 ++ [(viewName, members)])
    else acc) (f2, []))

/-- `DiagramFilter.create_hotspot_view` (defaults: `min_degree = 5`,
`min_complexity = 10`, `include_neighbors = True`): the hotspot set,
extended by every hotspot's both-direction neighbors when requested,
stored under the fixed name `hotspot`. -/
def createHotspotView (f : DiagramFilter) (minDegree : Nat) (minComplexity : Int)
    (includeNeighbors : Bool) : DiagramFilter × Finset String :=
  let hotspots := findHotspots f.analyzer minDegree minComplexity
  let hotspots :=
    if includeNeighbors then
      hotspots ∪ hotspots.biUnion (fun node => getNeighbors f.builder node "both")
    else hotspots
  ({ f with views := storeView f.views "hotspot" hotspots }, hotspots)

/-- `DiagramFilter.create_importance_view` (defaults: `top_n = 20`,
`metric = "pagerank"`, `include_neighbors = True`): top nodes by the
metric, extended by their both-direction neighbors when requested, stored
under `importance_<metric>_top<n>`. -/
def createImportanceView (ext : ExternalFns) (f : DiagramFilter) (topN : Nat)
    (metric : String) (includeNeighbors : Bool) :
    Except String (DiagramFilter × Finset String) := do
  let (a', topNodes) ← getTopNodesByMetric ext f.analyzer metric topN
  let importantNodes := (topNodes.map (fun p => p.1)).toFinset
  let importantNodes :=
    if includeNeighbors then
      importantNodes ∪ importantNodes.biUnion
        (fun node => getNeighbors f.builder node "both")
    else importantNodes
  let viewName := "importance_" ++ metric ++ "_top" ++ toString topN
  let f' := { f with
    analyzer := a'
    views := storeView f.views viewName importantNodes }
  .ok (f', importantNodes)

/-- One node entry of the `nodes` listing of `get_view_statistics`. -/
structure ViewNodeListing where
  id : String
  name : String
  full_name : String
  deriving DecidableEq

/-- The statistics dictionary of `get_view_statistics`.  The Python code
iterates the view's node set to produce the listing; the unordered
collection is rendered as a `Finset`. -/
structure ViewStatistics where
  view_name : String
  node_count : Nat
  edge_count : Nat
  density : ℚ
  nodes : Finset ViewNodeListing
  deriving DecidableEq

/-- `self.builder.graph.nodes[node_id].get("name", "")`. -/
def graphNodeName (g : NxDiGraph) (nodeId : String) : String :=
  match g.nodeAttr nodeId with
  | some a => a.name
  | none => ""

/-- `self.builder.graph.nodes[node_id].get("full_name", "")`. -/
def graphNodeFullName (g : NxDiGraph) (nodeId : String) : String :=
  match g.nodeAttr nodeId with
  | some a => a.full_name
  | none => ""

/-- `DiagramFilter.get_view_statistics`: `views.get(name)` followed by
`if not nodes: return None` — `None` both for an unknown name and for a
stored-but-empty view; otherwise node count, induced-subgraph edge count,
induced-subgraph density guarded by `len(nodes) > 1`, and the per-node
listing. -/
def getViewStatistics (f : DiagramFilter) (viewName : String) : Option ViewStatistics :=
  match f.views viewName with
  | none => none
  | some nodes =>
    if nodes = ∅ then none
    else
      let subgraph := getSubgraphByNodes f.builder nodes
      some { view_name := viewName
             node_count := nodes.card
             edge_count := subgraph.edgeList.length
             density := if 1 < nodes.card then nxDensity subgraph else 0
             nodes := nodes.image (fun nodeId =>
               { id := nodeId
                 name := graphNodeName f.builder nodeId
                 full_name := graphNodeFullName f.builder nodeId }) }

/-- The `created_views` dictionary accumulated by `auto_create_views`. -/
def CreatedViews : Type := String → Option (Finset String)

/-- `created_views = {}`. -/
def cvEmpty : CreatedViews := fun _ => none

/-- `created_views.update(entries)` for the listed entries. -/
def cvUpdate (cv : CreatedViews) (entries : List (String × Finset String)) : CreatedViews :=
  entries.foldl (fun acc e => fun x => if x = e.1 then some e.2 else acc x) cv

/-- One iteration of the strategy loop of `auto_create_views`: the
`if/elif` dispatch with the exact arguments the source passes
(`create_importance_view(top_n=15)`, everything else at its defaults;
`CONTEXT` and `LAYER` have no branch and do nothing).  `HOTSPOT` and
`IMPORTANCE` record their entry only when the returned set is non-empty
(`if nodes:`). -/
def runStrategy (ext : ExternalFns) (f : DiagramFilter) :
    ViewStrategy → Except String (DiagramFilter × List (String × Finset String))
  | .context => .ok (f, [])
  | .nspace => .ok (createNamespaceViews f none 2)
  | .community => createCommunityViews ext f 3 1
  | .hotspot =>
    let (f', nodes) := createHotspotView f 5 10 true
    .ok (f', if nodes = ∅ then [] else [("hotspot", nodes)])
  | .importance => do
    let (f', nodes) ← createImportanceView ext f 15 "pagerank" true
    .ok (f', if nodes = ∅ then [] else [("importance_top15", nodes)])
  | .layer => .ok (f, [])

/-- The `for strategy in strategies: try ... except` loop: a failing
strategy is caught (only logged) and the loop continues with the state
the strategies before it produced. -/
def autoLoop (ext : ExternalFns) :
    List ViewStrategy → DiagramFilter × CreatedViews → DiagramFilter × CreatedViews
  | [], st => st
  | s :: rest, st =>
    match runStrategy ext st.1 s with
    | .ok (f', entries) => autoLoop ext rest (f', cvUpdate st.2 entries)
    | .error _ => autoLoop ext rest st

/-- `DiagramFilter.auto_create_views`: defaults to `list(ViewStrategy)`
and never raises — per-strategy failures are swallowed by the loop. -/
def autoCreateViews (ext : ExternalFns) (f : DiagramFilter)
    (strategies : Option (List ViewStrategy)) : DiagramFilter × CreatedViews :=
  let strats := match strategies with
    | none => ViewStrategy.all
    | some l => l
  autoLoop ext strats (f, cvEmpty)

/-- The `main.py` wiring: parse → `GraphBuilder` → `GraphAnalyzer` over
the builder's graph → `DiagramFilter` with an empty view store. -/
def mkFilter (data : DiagramData) : DiagramFilter :=
  let g := buildGraph data
  { data := data, builder := g, analyzer := mkAnalyzer g, views := emptyViews }

/-- A sample element record used by concrete test inputs. -/
def mkElem (nm ns : String) (cx : ℚ) : ClassElement :=
  { name := nm, full_name := ns ++ "::" ++ nm, display_name := nm, nspace := ns
    type := "class", is_abstract := false, is_template := false
    member_count := 0, method_count := 0, complexity_score := cx }

/-- A sample relationship record used by concrete test inputs. -/
def mkRel (s d t : String) : Relationship :=
  { source := s, destination := d, type := t, label := none, access := none }

/-- One-element diagram: a single class `a` with complexity 0. -/
def exDataA : DiagramData :=
  { elements := [("a", mkElem "A" "" 0)], relationships := [] }

/-- Three-class diagram `a → b → c` (dependency, extension). -/
def exDataABC : DiagramData :=
  { elements := [("a", mkElem "A" "app" 0), ("b", mkElem "B" "app" 0),
                 ("c", mkElem "C" "app" 0)]
    relationships := [mkRel "a" "b" "dependency", mkRel "b" "c" "extension"] }

/-- Graph of `exDataABC`. -/
def exG : NxDiGraph := buildGraph exDataABC

/-- Two classes in `ns1` with one internal edge and one edge out to
`ns2`. -/
def exDataNs : DiagramData :=
  { elements := [("x", mkElem "X" "ns1" 0), ("y", mkElem "Y" "ns1" 0),
                 ("z", mkElem "Z" "ns2" 0)]
    relationships := [mkRel "x" "y" "association", mkRel "x" "z" "dependency"] }

/-- Graph of `exDataNs`. -/
def exGNs : NxDiGraph := buildGraph exDataNs

/-- External functions returning fixed partitions/scores for the
one-node example graph. -/
def extEx : ExternalFns :=
  { pagerankImpl := fun _ _ => .ok [("a", 1)]
    betweennessImpl := fun _ => .ok []
    degreeCentralityImpl := fun _ => []
    bestPartitionImpl := fun _ _ => .ok [("a", 0)] }

/-- External functions that always raise, to exercise the per-strategy
exception handling. -/
def extFail : ExternalFns :=
  { pagerankImpl := fun _ _ => .error "boom"
    betweennessImpl := fun _ => .error "boom"
    degreeCentralityImpl := fun _ => []
    bestPartitionImpl := fun _ _ => .error "boom" }

/-- Fresh analyzer over the one-node example graph. -/
def exAnalyzerA : GraphAnalyzer := mkAnalyzer (buildGraph exDataA)

/-- `exAnalyzerA` after its community cache has been filled by a first
`detect_communities` call against `extEx`. -/
def exAnalyzerA1 : GraphAnalyzer :=
  { exAnalyzerA with communitiesCache := some [("a", 0)] }

/-- `exAnalyzerA` after its pagerank cache has been filled by a first
`calculate_pagerank` call against `extEx`. -/
def exAnalyzerA2 : GraphAnalyzer :=
  { exAnalyzerA with pagerankCache := some [("a", 1)] }

/-- Filter over the one-node example. -/
def exFilterA : DiagramFilter := mkFilter exDataA

/-- Filter over the three-node example with one stored two-node view. -/
def exFilterB : DiagramFilter :=
  let f := mkFilter exDataABC
  { f with views := storeView f.views "v" {"a", "b"} }

/-! ## Helper lemmas: bounded-hop traversal -/

lemma hopsLoop_zero (g : NxDiGraph) (d : String) (v l : Finset String) :
    hopsLoop g d 0 v l = v := rfl

lemma hopsLoop_succ (g : NxDiGraph) (d : String) (n : Nat) (v l : Finset String) :
    hopsLoop g d (n + 1) v l =
      (if (l.biUnion (fun x => getNeighbors g x d)) \ v = ∅ then v
       else hopsLoop g d n (v ∪ ((l.biUnion (fun x => getNeighbors g x d)) \ v))
         ((l.biUnion (fun x => getNeighbors g x d)) \ v)) := rfl

/-- The visited set only grows along the hop loop. -/
lemma subset_hopsLoop (g : NxDiGraph) (d : String) :
    ∀ (n : Nat) (v l : Finset String), v ⊆ hopsLoop g d n v l := by
  intro n
  induction n with
  | zero =>
    intro v l
    rw [hopsLoop_zero]
  | succ n ih =>
    intro v l
    rw [hopsLoop_succ]
    by_cases he : (l.biUnion (fun x => getNeighbors g x d)) \ v = ∅
    · rw [if_pos he]
    · rw [if_neg he]
      exact Finset.Subset.trans Finset.subset_union_left (ih _ _)

/-- Allowing one more hop can only enlarge the result of the loop. -/
lemma hopsLoop_mono_succ (g : NxDiGraph) (d : String) :
    ∀ (n : Nat) (v l : Finset String), hopsLoop g d n v l ⊆ hopsLoop g d (n + 1) v l := by
  intro n
  induction n with
  | zero =>
    intro v l
    rw [hopsLoop_zero]
    exact subset_hopsLoop g d 1 v l
  | succ n ih =>
    intro v l
    rw [hopsLoop_succ g d n.succ, hopsLoop_succ g d n]
    by_cases he : (l.biUnion (fun x => getNeighbors g x d)) \ v = ∅
    · rw [if_pos he, if_pos he]
    · rw [if_neg he, if_neg he]
      exact ih _ _

/-! ## Helper lemmas: direction strings -/

/-- If the per-node neighbor sets of two direction strings agree, the hop
loop agrees as well. -/
lemma hopsLoop_congr_direction (g : NxDiGraph) (d1 d2 : String)
    (h : ∀ x, getNeighbors g x d1 = getNeighbors g x d2) :
    ∀ (n : Nat) (v l : Finset String), hopsLoop g d1 n v l = hopsLoop g d2 n v l := by
  intro n
  induction n with
  | zero =>
    intro v l
    rw [hopsLoop_zero, hopsLoop_zero]
  | succ n ih =>
    intro v l
    rw [hopsLoop_succ, hopsLoop_succ]
    have hb : l.biUnion (fun x => getNeighbors g x d1)
        = l.biUnion (fun x => getNeighbors g x d2) :=
      Finset.biUnion_congr rfl (fun x _ => h x)
    rw [hb]
    by_cases he : (l.biUnion (fun x => getNeighbors g x d2)) \ v = ∅
    · rw [if_pos he, if_pos he]
    · rw [if_neg he, if_neg he, ih]

/-- Any direction string other than `"in"` and `"out"` selects the final
`else` branch of `get_neighbors`. -/
lemma getNeighbors_fallback (g : NxDiGraph) (nodeId : String) (d : String)
    (h1 : d ≠ "in") (h2 : d ≠ "out") :
    getNeighbors g nodeId d = getNeighbors g nodeId "both" := by
  unfold getNeighbors
  rw [if_neg h1, if_neg h2]
  rw [if_neg (by decide : ¬("both" : String) = "in"),
      if_neg (by decide : ¬("both" : String) = "out")]

/-! ## C2: zero-hop identity and hop monotonicity -/

/-- C2: for a node of the graph, `get_nodes_within_hops` with
`max_hops = 0` returns exactly the singleton of the center, and for every
hop bound the result at `h` hops is contained in the result at `h + 1`
hops, in every direction. -/
theorem nodesWithinHops_zero_and_monotone (g : NxDiGraph) (center : String)
    (dir : String) (hc : center ∈ g.nodeList) :
    getNodesWithinHops g center 0 dir = {center} ∧
    ∀ hops : Nat, getNodesWithinHops g center hops dir ⊆
      getNodesWithinHops g center (hops + 1) dir := by
  constructor
  · unfold getNodesWithinHops
    rw [if_neg (not_not_intro hc), hopsLoop_zero]
  · intro hops
    unfold getNodesWithinHops
    rw [if_neg (not_not_intro hc), if_neg (not_not_intro hc)]
    exact hopsLoop_mono_succ g dir hops {center} {center}

/-- Witness for C2 on the concrete graph `a → b → c`. -/
theorem nodesWithinHops_zero_and_monotone_witness :
    getNodesWithinHops exG "a" 0 "out" = {"a"} ∧
    getNodesWithinHops exG "a" 1 "out" ⊆ getNodesWithinHops exG "a" 2 "out" := by
  have h := nodesWithinHops_zero_and_monotone exG "a" "out" (by decide)
  exact ⟨h.1, h.2 1⟩

/-! ## C3: both = in ∪ out, unknown node yields the empty set -/

/-- C3: `get_neighbors(n, "both")` is the union of the `"in"` and
`"out"` neighbor sets, and a node identity outside the graph gets the
empty set back for every direction string. -/
theorem neighbors_both_union_and_unknown_empty (g : NxDiGraph) (n : String) :
    getNeighbors g n "both" = getNeighbors g n "in" ∪ getNeighbors g n "out" ∧
    (n ∉ g.nodeList → ∀ d : String, getNeighbors g n d = ∅) := by
  constructor
  · by_cases hn : n ∈ g.nodeList
    · unfold getNeighbors
      rw [if_neg (not_not_intro hn), if_neg (not_not_intro hn), if_neg (not_not_intro hn)]
      rw [if_neg (by decide : ¬("both" : String) = "in"),
          if_neg (by decide : ¬("both" : String) = "out"),
          if_pos (rfl : ("in" : String) = "in"),
          if_neg (by decide : ¬("out" : String) = "in"),
          if_pos (rfl : ("out" : String) = "out")]
    · unfold getNeighbors
      rw [if_pos hn, if_pos hn, if_pos hn, Finset.empty_union]
  · intro hn d
    unfold getNeighbors
    rw [if_pos hn]

/-- Witness for C3 on the concrete graph `a → b → c` and the absent
identity `zz`. -/
theorem neighbors_both_union_and_unknown_empty_witness :
    (getNeighbors exG "b" "both" = getNeighbors exG "b" "in" ∪ getNeighbors exG "b" "out") ∧
    getNeighbors exG "zz" "in" = ∅ := by
  refine ⟨(neighbors_both_union_and_unknown_empty exG "b").1, ?_⟩
  exact (neighbors_both_union_and_unknown_empty exG "zz").2 (by decide) "in"

/-! ## C9: unrecognized direction strings fall back to "both" -/

/-- C9: a direction string other than `"in"`/`"out"` (for example
`"sideways"`) is treated exactly as `"both"` by `get_neighbors` — no
direction is ever rejected — and `get_nodes_within_hops`, which forwards
its direction to `get_neighbors`, inherits the same fallback. -/
theorem neighbors_direction_fallback (g : NxDiGraph) (n center : String)
    (maxHops : Nat) (d : String) (h1 : d ≠ "in") (h2 : d ≠ "out") :
    getNeighbors g n d = getNeighbors g n "both" ∧
    getNodesWithinHops g center maxHops d = getNodesWithinHops g center maxHops "both" := by
  refine ⟨getNeighbors_fallback g n d h1 h2, ?_⟩
  unfold getNodesWithinHops
  by_cases hc : center ∈ g.nodeList
  · rw [if_neg (not_not_intro hc), if_neg (not_not_intro hc)]
    exact hopsLoop_congr_direction g d "both"
      (fun x => getNeighbors_fallback g x d h1 h2) maxHops {center} {center}
  · rw [if_pos hc, if_pos hc]

/-- Witness for C9 with the misspelled direction `"sideways"`. -/
theorem neighbors_direction_fallback_witness :
    getNeighbors exG "b" "sideways" = getNeighbors exG "b" "both" ∧
    getNodesWithinHops exG "a" 2 "sideways" = getNodesWithinHops exG "a" 2 "both" :=
  neighbors_direction_fallback exG "b" "a" 2 "sideways" (by decide) (by decide)

/-! ## Helper lemmas: edge weights along graph construction -/

/-- Every stored edge-attribute dict carries the table weight of its own
stored kind. -/
def EdgeWeightInv (g : NxDiGraph) : Prop :=
  ∀ s d a, g.edgeAttr s d = some a → a.weight = getRelationshipWeight a.type

lemma edgeWeightInv_addRelationship (g : NxDiGraph) (rel : Relationship)
    (h : EdgeWeightInv g) : EdgeWeightInv (addRelationship g rel) := by
  unfold addRelationship
  by_cases hc : rel.source ∈ g.nodeList ∧ rel.destination ∈ g.nodeList
  · rw [if_pos hc]
    intro s d a ha
    unfold addEdge at ha
    simp only at ha
    by_cases hsd : s = rel.source ∧ d = rel.destination
    · rw [if_pos hsd] at ha
      cases ha
      rfl
    · rw [if_neg hsd] at ha
      exact h s d a ha
  · rw [if_neg hc]
    exact h

lemma edgeWeightInv_relFold (rels : List Relationship) :
    ∀ g : NxDiGraph, EdgeWeightInv g → EdgeWeightInv (rels.foldl addRelationship g) := by
  induction rels with
  | nil => intro g h; exact h
  | cons r rest ih =>
    intro g h
    exact ih (addRelationship g r) (edgeWeightInv_addRelationship g r h)

lemma edgeWeightInv_addAllNodes (data : DiagramData) : EdgeWeightInv (addAllNodes data) := by
  unfold addAllNodes
  have key : ∀ (l : List (String × ClassElement)) (g : NxDiGraph), EdgeWeightInv g →
      EdgeWeightInv (l.foldl (fun g pe => addNode g pe.1 (nodeAttrsOf pe.2)) g) := by
    intro l
    induction l with
    | nil => intro g h; exact h
    | cons pe rest ih =>
      intro g h
      exact ih _ (by intro s d a ha; exact h s d a ha)
  exact key data.elements nxEmpty (by intro s d a ha; cases ha)

/-! ## C5: the relationship-weight table -/

/-- C5: the weight lookup table maps extension to 2.0, composition to
1.8, aggregation to 1.5, association to 1.2, dependency to 0.8 and every
other kind to 1.0, and every edge stored during graph construction
carries exactly the table weight of its relationship kind. -/
theorem relationshipWeight_table_spec :
    getRelationshipWeight "extension" = 2 ∧
    getRelationshipWeight "composition" = 9/5 ∧
    getRelationshipWeight "aggregation" = 3/2 ∧
    getRelationshipWeight "association" = 6/5 ∧
    getRelationshipWeight "dependency" = 4/5 ∧
    (∀ t : String, t ≠ "extension" → t ≠ "composition" → t ≠ "aggregation" →
      t ≠ "association" → t ≠ "dependency" → getRelationshipWeight t = 1) ∧
    (∀ (data : DiagramData) (s d : String) (a : EdgeAttrs),
      (buildGraph data).edgeAttr s d = some a →
        a.weight = getRelationshipWeight a.type) := by
  refine ⟨rfl, rfl, rfl, rfl, rfl, ?_, ?_⟩
  · intro t h1 h2 h3 h4 h5
    unfold getRelationshipWeight
    rw [if_neg h1, if_neg h2, if_neg h3, if_neg h4, if_neg h5]
  · intro data s d a ha
    exact edgeWeightInv_relFold data.relationships (addAllNodes data)
      (edgeWeightInv_addAllNodes data) s d a ha

/-- Witness for C5: an unknown kind gets the default weight and the
stored edge `a → b` of the example graph carries the dependency
weight. -/
theorem relationshipWeight_table_spec_witness :
    getRelationshipWeight "friendship" = 1 ∧
    (exG.edgeAttr "a" "b").map EdgeAttrs.weight = some (4/5) := by
  constructor
  · exact relationshipWeight_table_spec.2.2.2.2.2.1 "friendship"
      (by decide) (by decide) (by decide) (by decide) (by decide)
  · rfl

/-! ## C7: the community cache — first call wins -/

/-- C7: on a fresh cache, `detect_communities` actually invokes Louvain
`best_partition` on the undirected collapse with the given resolution;
and once a call has succeeded, every later call — with any resolution —
returns exactly the same node→community mapping and leaves the analyzer
untouched. -/
theorem detectCommunities_firstCallWins (ext : ExternalFns) (a : GraphAnalyzer)
    (r1 r2 : ℚ) (a1 : GraphAnalyzer) (c1 : List (String × Int))
    (h : detectCommunities ext a r1 = .ok (a1, c1)) :
    detectCommunities ext a1 r2 = .ok (a1, c1) ∧
    (a.communitiesCache = none →
      ext.bestPartitionImpl (toUndirected a.graph) r1 = .ok c1 ∧
      a1 = { a with communitiesCache := some c1 }) := by
  unfold detectCommunities at h ⊢
  cases hc : a.communitiesCache with
  | some c =>
    rw [hc] at h
    obtain ⟨ha1, hc1⟩ : a1 = a ∧ c1 = c := by
      simp only [Except.ok.injEq, Prod.mk.injEq] at h
      exact ⟨h.1.symm, h.2.symm⟩
    subst ha1
    subst hc1
    constructor
    · rw [hc]
    · intro hn
      exact Option.noConfusion hn
  | none =>
    rw [hc] at h
    cases hi : ext.bestPartitionImpl (toUndirected a.graph) r1 with
    | error e =>
      rw [hi] at h
      exact absurd h (by simp)
    | ok c =>
      rw [hi] at h
      obtain ⟨ha1, hc1⟩ : a1 = { a with communitiesCache := some c } ∧ c1 = c := by
        simp only [Except.ok.injEq, Prod.mk.injEq] at h
        exact ⟨h.1.symm, h.2.symm⟩
      subst ha1
      subst hc1
      exact ⟨rfl, fun _ => ⟨rfl, rfl⟩⟩

/-- Witness for C7: the one-node analyzer, resolution 1 on the first
call and 7/2 on the second. -/
theorem detectCommunities_firstCallWins_witness :
    detectCommunities extEx exAnalyzerA1 (7/2) = .ok (exAnalyzerA1, [("a", 0)]) :=
  (detectCommunities_firstCallWins extEx exAnalyzerA 1 (7/2) exAnalyzerA1
    [("a", 0)] rfl).1

/-! ## C10: the pagerank cache — first call wins -/

/-- C10: on a fresh cache, `calculate_pagerank` actually invokes
`nx.pagerank` on the graph with the given damping factor; and once a
call has succeeded, every later call — with any alpha — returns exactly
the same cached score mapping and leaves the analyzer untouched. -/
theorem calculatePagerank_firstCallWins (ext : ExternalFns) (a : GraphAnalyzer)
    (alpha1 alpha2 : ℚ) (a1 : GraphAnalyzer) (c1 : List (String × ℚ))
    (h : calculatePagerank ext a alpha1 = .ok (a1, c1)) :
    calculatePagerank ext a1 alpha2 = .ok (a1, c1) ∧
    (a.pagerankCache = none →
      ext.pagerankImpl a.graph alpha1 = .ok c1 ∧
      a1 = { a with pagerankCache := some c1 }) := by
  unfold calculatePagerank at h ⊢
  cases hc : a.pagerankCache with
  | some c =>
    rw [hc] at h
    obtain ⟨ha1, hc1⟩ : a1 = a ∧ c1 = c := by
      simp only [Except.ok.injEq, Prod.mk.injEq] at h
      exact ⟨h.1.symm, h.2.symm⟩
    subst ha1
    subst hc1
    constructor
    · rw [hc]
    · intro hn
      exact Option.noConfusion hn
  | none =>
    rw [hc] at h
    cases hi : ext.pagerankImpl a.graph alpha1 with
    | error e =>
      rw [hi] at h
      exact absurd h (by simp)
    | ok c =>
      rw [hi] at h
      obtain ⟨ha1, hc1⟩ : a1 = { a with pagerankCache := some c } ∧ c1 = c := by
        simp only [Except.ok.injEq, Prod.mk.injEq] at h
        exact ⟨h.1.symm, h.2.symm⟩
      subst ha1
      subst hc1
      exact ⟨rfl, fun _ => ⟨rfl, rfl⟩⟩

/-- Witness for C10: the one-node analyzer, alpha 0.85 on the first call
and 0.5 on the second. -/
theorem calculatePagerank_firstCallWins_witness :
    calculatePagerank extEx exAnalyzerA2 (1/2) = .ok (exAnalyzerA2, [("a", 1)]) :=
  (calculatePagerank_firstCallWins extEx exAnalyzerA (17/20) (1/2) exAnalyzerA2
    [("a", 1)] rfl).1

/-! ## Helper lemmas: namespace edge counting -/

/-- Edges incident to a namespace split into internal ones and the two
crossing directions. -/
lemma incident_split (g : NxDiGraph) (ns : String) : ∀ l : List (String × String),
    (l.filter (fun p => nodeNamespace g p.1 = ns ∨ nodeNamespace g p.2 = ns)).length =
      (l.filter (fun p => nodeNamespace g p.1 = ns ∧ nodeNamespace g p.2 = ns)).length +
      ((l.filter (fun p => nodeNamespace g p.1 = ns ∧ ¬nodeNamespace g p.2 = ns)).length +
       (l.filter (fun p => ¬nodeNamespace g p.1 = ns ∧ nodeNamespace g p.2 = ns)).length) := by
  intro l
  induction l with
  | nil => rfl
  | cons x xs ih =>
    by_cases h1 : nodeNamespace g x.1 = ns <;> by_cases h2 : nodeNamespace g x.2 = ns <;>
      simp [List.filter_cons, h1, h2] at ih ⊢ <;> omega

/-- Crossing edges split into the two crossing directions. -/
lemma crossing_split (g : NxDiGraph) (ns : String) : ∀ l : List (String × String),
    (l.filter (fun p => (nodeNamespace g p.1 = ns ∧ ¬nodeNamespace g p.2 = ns) ∨
        (¬nodeNamespace g p.1 = ns ∧ nodeNamespace g p.2 = ns))).length =
      (l.filter (fun p => nodeNamespace g p.1 = ns ∧ ¬nodeNamespace g p.2 = ns)).length +
      (l.filter (fun p => ¬nodeNamespace g p.1 = ns ∧ nodeNamespace g p.2 = ns)).length := by
  intro l
  induction l with
  | nil => rfl
  | cons x xs ih =>
    by_cases h1 : nodeNamespace g x.1 = ns <;> by_cases h2 : nodeNamespace g x.2 = ns <;>
      simp [List.filter_cons, h1, h2] at ih ⊢ <;> omega

/-! ## C6: namespace cohesion and coupling -/

/-- C6: for every graph and namespace, internal plus external equals the
count of edges incident to the namespace, external counts the edges
crossing the boundary in either direction, cohesion is
internal/(internal+external) when the namespace has incident edges and 0
otherwise, cohesion always lies in [0, 1], node_count counts the
namespace's nodes, and coupling is external/node_count when the
namespace has nodes and 0 otherwise. -/
theorem namespaceCoupling_spec (g : NxDiGraph) (ns : String) :
    (analyzeNamespaceCoupling g ns).internal_edges +
        (analyzeNamespaceCoupling g ns).external_edges =
      (g.edgeList.filter (fun p =>
        nodeNamespace g p.1 = ns ∨ nodeNamespace g p.2 = ns)).length ∧
    (analyzeNamespaceCoupling g ns).external_edges =
      (g.edgeList.filter (fun p =>
        (nodeNamespace g p.1 = ns ∧ ¬nodeNamespace g p.2 = ns) ∨
        (¬nodeNamespace g p.1 = ns ∧ nodeNamespace g p.2 = ns))).length ∧
    (0 < (analyzeNamespaceCoupling g ns).internal_edges +
        (analyzeNamespaceCoupling g ns).external_edges →
      (analyzeNamespaceCoupling g ns).cohesion =
        ((analyzeNamespaceCoupling g ns).internal_edges : ℚ) /
          (((analyzeNamespaceCoupling g ns).internal_edges +
            (analyzeNamespaceCoupling g ns).external_edges : Nat) : ℚ)) ∧
    ((analyzeNamespaceCoupling g ns).internal_edges +
        (analyzeNamespaceCoupling g ns).external_edges = 0 →
      (analyzeNamespaceCoupling g ns).cohesion = 0) ∧
    0 ≤ (analyzeNamespaceCoupling g ns).cohesion ∧
    (analyzeNamespaceCoupling g ns).cohesion ≤ 1 ∧
    (analyzeNamespaceCoupling g ns).node_count = (namespaceNodes g ns).length ∧
    (0 < (analyzeNamespaceCoupling g ns).node_count →
      (analyzeNamespaceCoupling g ns).coupling =
        ((analyzeNamespaceCoupling g ns).external_edges : ℚ) /
          (((analyzeNamespaceCoupling g ns).node_count : Nat) : ℚ)) ∧
    ((analyzeNamespaceCoupling g ns).node_count = 0 →
      (analyzeNamespaceCoupling g ns).coupling = 0) := by
  have hint : (analyzeNamespaceCoupling g ns).internal_edges =
      namespaceInternalEdges g ns := rfl
  have hext : (analyzeNamespaceCoupling g ns).external_edges =
      namespaceExternalOut g ns + namespaceExternalIn g ns := rfl
  have hnc : (analyzeNamespaceCoupling g ns).node_count =
      (namespaceNodes g ns).length := rfl
  have hcoh : (analyzeNamespaceCoupling g ns).cohesion =
      (if 0 < namespaceInternalEdges g ns +
          (namespaceExternalOut g ns + namespaceExternalIn g ns) then
        ((namespaceInternalEdges g ns : ℚ)) /
          ((namespaceInternalEdges g ns +
            (namespaceExternalOut g ns + namespaceExternalIn g ns) : Nat) : ℚ)
      else 0) := rfl
  have hcpl : (analyzeNamespaceCoupling g ns).coupling =
      (if 0 < (namespaceNodes g ns).length then
        ((namespaceExternalOut g ns + namespaceExternalIn g ns : Nat) : ℚ) /
          (((namespaceNodes g ns).length : Nat) : ℚ)
      else 0) := rfl
  refine ⟨?_, ?_, ?_, ?_, ?_, ?_, hnc, ?_, ?_⟩
  · rw [hint, hext]
    rw [incident_split g ns g.edgeList]
    rfl
  · rw [hext, crossing_split g ns g.edgeList]
    rfl
  · intro hpos
    rw [hint, hext] at hpos ⊢
    rw [hcoh, if_pos hpos]
  · intro hzero
    rw [hint, hext] at hzero
    rw [hcoh, if_neg (by omega)]
  · rw [hcoh]
    by_cases hpos : 0 < namespaceInternalEdges g ns +
        (namespaceExternalOut g ns + namespaceExternalIn g ns)
    · rw [if_pos hpos]
      exact div_nonneg (Nat.cast_nonneg _) (Nat.cast_nonneg _)
    · rw [if_neg hpos]
  · rw [hcoh]
    by_cases hpos : 0 < namespaceInternalEdges g ns +
        (namespaceExternalOut g ns + namespaceExternalIn g ns)
    · rw [if_pos hpos]
      rw [div_le_one (by exact_mod_cast hpos)]
      exact_mod_cast Nat.le_add_right _ _
    · rw [if_neg hpos]
      exact zero_le_one
  · intro hpos
    rw [hnc] at hpos
    rw [hcpl, if_pos hpos, hext, hnc]
  · intro hzero
    rw [hnc] at hzero
    rw [hcpl, if_neg (by omega)]

/-- Witness for C6 on the concrete two-namespace graph: `ns1` holds two
nodes, one internal edge and one outgoing edge, so cohesion and coupling
are both computed by the positive branches. -/
theorem namespaceCoupling_spec_witness :
    (analyzeNamespaceCoupling exGNs "ns1").cohesion =
      ((analyzeNamespaceCoupling exGNs "ns1").internal_edges : ℚ) /
        (((analyzeNamespaceCoupling exGNs "ns1").internal_edges +
          (analyzeNamespaceCoupling exGNs "ns1").external_edges : Nat) : ℚ) ∧
    (analyzeNamespaceCoupling exGNs "ns1").coupling =
      ((analyzeNamespaceCoupling exGNs "ns1").external_edges : ℚ) /
        ((((analyzeNamespaceCoupling exGNs "ns1").node_count : Nat)) : ℚ) := by
  have h := namespaceCoupling_spec exGNs "ns1"
  exact ⟨h.2.2.1 (by decide), h.2.2.2.2.2.2.2.1 (by decide)⟩

/-! ## C1: view statistics and the "not found" result -/

/-- C1 (amended): `get_view_statistics` answers "not found" (`None`)
exactly when the name has no stored view **or** the stored view is the
empty set (the Python guard `if not nodes` treats an empty stored set
like a missing key); for every stored non-empty view it returns the
statistics structure with node count, induced-subgraph edge count,
induced-subgraph density (0 whenever the view has fewer than 2 nodes)
and the per-node identity/name/full-name listing. -/
theorem viewStatistics_notFound_spec (f : DiagramFilter) (viewName : String) :
    (getViewStatistics f viewName = none ↔
      f.views viewName = none ∨ f.views viewName = some ∅) ∧
    (∀ s : Finset String, f.views viewName = some s → s ≠ ∅ →
      getViewStatistics f viewName = some
        { view_name := viewName
          node_count := s.card
          edge_count := (getSubgraphByNodes f.builder s).edgeList.length
          density := if 1 < s.card then nxDensity (getSubgraphByNodes f.builder s) else 0
          nodes := s.image (fun nodeId =>
            { id := nodeId
              name := graphNodeName f.builder nodeId
              full_name := graphNodeFullName f.builder nodeId }) }) := by
  cases hv : f.views viewName with
  | none =>
    constructor
    · constructor
      · intro _
        exact Or.inl rfl
      · intro _
        simp [getViewStatistics, hv]
    · intro s hs
      cases hs
  | some s =>
    by_cases hs : s = ∅
    · subst hs
      constructor
      · constructor
        · intro _
          exact Or.inr rfl
        · intro _
          simp [getViewStatistics, hv]
      · intro s' hs' hne
        injection hs' with h2
        exact absurd h2.symm hne
    · constructor
      · constructor
        · intro h
          simp only [getViewStatistics, hv] at h
          rw [if_neg hs] at h
          cases h
        · intro h
          rcases h with h | h
          · cases h
          · injection h with h2
            exact absurd h2 hs
      · intro s' hs' hne
        injection hs' with h2
        subst h2
        simp only [getViewStatistics, hv]
        rw [if_neg hs]

/-- Witness for C1 on the three-node example with the stored non-empty
view `v = {a, b}` and the never-stored name `w`. -/
theorem viewStatistics_notFound_spec_witness :
    getViewStatistics exFilterB "v" = some
      { view_name := "v"
        node_count := ({"a", "b"} : Finset String).card
        edge_count := (getSubgraphByNodes exFilterB.builder {"a", "b"}).edgeList.length
        density := if 1 < ({"a", "b"} : Finset String).card then
            nxDensity (getSubgraphByNodes exFilterB.builder {"a", "b"}) else 0
        nodes := ({"a", "b"} : Finset String).image (fun nodeId =>
          { id := nodeId
            name := graphNodeName exFilterB.builder nodeId
            full_name := graphNodeFullName exFilterB.builder nodeId }) } ∧
    getViewStatistics exFilterB "w" = none := by
  constructor
  · exact (viewStatistics_notFound_spec exFilterB "v").2 {"a", "b"} rfl (by decide)
  · exact (viewStatistics_notFound_spec exFilterB "w").1.mpr (Or.inl rfl)

/-- C1 counterexample: on the one-node diagram, `create_hotspot_view`
stores the **empty** set under the name `hotspot`, and
`get_view_statistics("hotspot")` nevertheless answers "not found" — a
stored view name does not guarantee a statistics result, contrary to the
claim. -/
theorem viewStatistics_emptyView_counterexample :
    (createHotspotView exFilterA 5 10 true).1.views "hotspot" = some ∅ ∧
    getViewStatistics (createHotspotView exFilterA 5 10 true).1 "hotspot" = none := by
  exact ⟨by decide, by decide⟩

/-! ## Helper lemmas: the auto-create strategy loop -/

lemma autoLoop_cons (ext : ExternalFns) (s : ViewStrategy) (rest : List ViewStrategy)
    (st : DiagramFilter × CreatedViews) :
    autoLoop ext (s :: rest) st =
      (match runStrategy ext st.1 s with
       | .ok (f', entries) => autoLoop ext rest (f', cvUpdate st.2 entries)
       | .error _ => autoLoop ext rest st) := rfl

lemma autoLoop_append (ext : ExternalFns) (l1 l2 : List ViewStrategy) :
    ∀ st : DiagramFilter × CreatedViews,
      autoLoop ext (l1 ++ l2) st = autoLoop ext l2 (autoLoop ext l1 st) := by
  induction l1 with
  | nil => intro st; rfl
  | cons s rest ih =>
    intro st
    rw [show (s :: rest) ++ l2 = s :: (rest ++ l2) from rfl]
    rw [autoLoop_cons ext s (rest ++ l2) st, autoLoop_cons ext s rest st]
    cases h : runStrategy ext st.1 s with
    | ok r =>
      obtain ⟨f1, e1⟩ := r
      exact ih (f1, cvUpdate st.2 e1)
    | error e => exact ih st

lemma autoLoop_layer_id (ext : ExternalFns) (st : DiagramFilter × CreatedViews) :
    autoLoop ext [ViewStrategy.layer] st = st := rfl

/-! ## C8: the auto-create default strategy set and failure isolation -/

/-- C8 (amended): with no explicit strategy list, `auto_create_views`
iterates all six enumeration members but only the namespace, community,
hotspot and importance branches do anything — context and layer are
never auto-invoked — so the run equals the four-strategy run; namespace,
community and hotspot are invoked with their signature defaults while
importance is invoked with `top_n = 15` (not its signature default 20);
and a strategy whose execution raises is simply skipped: the loop
continues from the state the earlier strategies produced, so AutoCreate
never propagates a per-strategy failure. -/
theorem autoCreateViews_spec (ext : ExternalFns) (f : DiagramFilter) :
    autoCreateViews ext f none =
      autoLoop ext [.nspace, .community, .hotspot, .importance] (f, cvEmpty) ∧
    (∀ f' : DiagramFilter, runStrategy ext f' .context = .ok (f', [])) ∧
    (∀ f' : DiagramFilter, runStrategy ext f' .layer = .ok (f', [])) ∧
    (∀ f' : DiagramFilter, runStrategy ext f' .nspace =
      .ok (createNamespaceViews f' none 2)) ∧
    (∀ f' : DiagramFilter, runStrategy ext f' .community =
      createCommunityViews ext f' 3 1) ∧
    (∀ f' : DiagramFilter, runStrategy ext f' .importance =
      (createImportanceView ext f' 15 "pagerank" true).bind (fun r =>
        .ok (r.1, if r.2 = ∅ then [] else [("importance_top15", r.2)]))) ∧
    (∀ (s : ViewStrategy) (rest : List ViewStrategy)
       (st : DiagramFilter × CreatedViews) (e : String),
      runStrategy ext st.1 s = .error e →
        autoLoop ext (s :: rest) st = autoLoop ext rest st) := by
  refine ⟨?_, fun _ => rfl, fun _ => rfl, fun _ => rfl, fun _ => rfl, fun _ => rfl, ?_⟩
  · show autoLoop ext ViewStrategy.all (f, cvEmpty) = _
    have h1 : autoLoop ext ViewStrategy.all (f, cvEmpty) =
        autoLoop ext [.nspace, .community, .hotspot, .importance, .layer] (f, cvEmpty) := rfl
    have h2 : ([.nspace, .community, .hotspot, .importance, .layer] : List ViewStrategy) =
        [.nspace, .community, .hotspot, .importance] ++ [.layer] := rfl
    rw [h1, h2, autoLoop_append, autoLoop_layer_id]
  · intro s rest st e he
    rw [autoLoop_cons ext s rest st, he]

/-- Witness for C8: the one-node example — running with the failing
external functions, the pagerank strategy raises and is skipped, so the
singleton importance strategy list leaves the state untouched. -/
theorem autoCreateViews_spec_witness :
    autoCreateViews extEx exFilterA none =
      autoLoop extEx [.nspace, .community, .hotspot, .importance] (exFilterA, cvEmpty) ∧
    autoLoop extFail [ViewStrategy.importance] (exFilterA, cvEmpty) = (exFilterA, cvEmpty) := by
  constructor
  · exact (autoCreateViews_spec extEx exFilterA).1
  · exact (autoCreateViews_spec extFail exFilterA).2.2.2.2.2.2
      .importance [] (exFilterA, cvEmpty) "boom" rfl

/-- C8 counterexample: the auto-created importance view is stored under
`importance_pagerank_top15` — `auto_create_views` passes `top_n = 15`
— whereas the signature-default invocation of `create_importance_view`
(`top_n = 20`) stores `importance_pagerank_top20`, a name the auto run
never creates.  The strategy therefore does not run with its default
parameters. -/
theorem autoCreateViews_defaults_counterexample :
    (autoCreateViews extEx exFilterA none).1.views "importance_pagerank_top15" =
      some {"a"} ∧
    (autoCreateViews extEx exFilterA none).1.views "importance_pagerank_top20" = none ∧
    (match createImportanceView extEx exFilterA 20 "pagerank" true with
      | .ok (f', _) => f'.views "importance_pagerank_top20"
      | .error _ => none) = some {"a"} := by
  exact ⟨by decide, by decide, by decide⟩

/-! ## Helper lemmas: graph construction -/

lemma addNode_nodeList (g : NxDiGraph) (nodeId : String) (a : NodeAttrs) (x : String) :
    x ∈ (addNode g nodeId a).nodeList ↔ x ∈ g.nodeList ∨ x = nodeId := by
  show x ∈ (if nodeId ∈ g.nodeList then g.nodeList else g.nodeList ++ [nodeId]) ↔ _
  by_cases hp : nodeId ∈ g.nodeList
  · rw [if_pos hp]
    constructor
    · exact Or.inl
    · rintro (h | h)
      · exact h
      · rw [h]; exact hp
  · rw [if_neg hp]
    simp [List.mem_append]

/-- Node membership after the node-adding loop: the graph's nodes are
the starting nodes plus the element ids. -/
lemma mem_nodeFold (l : List (String × ClassElement)) :
    ∀ (g : NxDiGraph) (x : String),
      x ∈ (l.foldl (fun g pe => addNode g pe.1 (nodeAttrsOf pe.2)) g).nodeList ↔
        x ∈ g.nodeList ∨ x ∈ l.map Prod.fst := by
  induction l with
  | nil => intro g x; simp
  | cons pe rest ih =>
    intro g x
    rw [List.foldl_cons, ih, addNode_nodeList]
    simp only [List.map_cons, List.mem_cons]
    tauto

lemma nodeFold_edgeList (l : List (String × ClassElement)) :
    ∀ g : NxDiGraph,
      (l.foldl (fun g pe => addNode g pe.1 (nodeAttrsOf pe.2)) g).edgeList = g.edgeList := by
  induction l with
  | nil => intro g; rfl
  | cons pe rest ih => intro g; exact ih (addNode g pe.1 (nodeAttrsOf pe.2))

lemma mem_addAllNodes (data : DiagramData) (x : String) :
    x ∈ (addAllNodes data).nodeList ↔ x ∈ data.elements.map Prod.fst := by
  unfold addAllNodes
  rw [mem_nodeFold]
  show x ∈ ([] : List String) ∨ _ ↔ _
  simp

lemma addRelationship_nodeList (g : NxDiGraph) (rel : Relationship) :
    (addRelationship g rel).nodeList = g.nodeList := by
  unfold addRelationship
  by_cases hc : rel.source ∈ g.nodeList ∧ rel.destination ∈ g.nodeList
  · rw [if_pos hc]
    have h1 : (addEndpoint g rel.source).nodeList = g.nodeList := by
      show (if rel.source ∈ g.nodeList then g.nodeList else _) = g.nodeList
      rw [if_pos hc.1]
    show (addEndpoint (addEndpoint g rel.source) rel.destination).nodeList = g.nodeList
    show (if rel.destination ∈ (addEndpoint g rel.source).nodeList then
      (addEndpoint g rel.source).nodeList else
      (addEndpoint g rel.source).nodeList ++ [rel.destination]) = g.nodeList
    rw [h1, if_pos hc.2]
  · rw [if_neg hc]

lemma relFold_nodeList (rels : List Relationship) :
    ∀ g : NxDiGraph, (rels.foldl addRelationship g).nodeList = g.nodeList := by
  induction rels with
  | nil => intro g; rfl
  | cons r rest ih =>
    intro g
    rw [List.foldl_cons, ih, addRelationship_nodeList]

lemma buildGraph_nodeList (data : DiagramData) (x : String) :
    x ∈ (buildGraph data).nodeList ↔ x ∈ data.elements.map Prod.fst := by
  unfold buildGraph
  rw [relFold_nodeList, mem_addAllNodes]

lemma addRelationship_edgeList (g : NxDiGraph) (rel : Relationship) (p : String × String) :
    p ∈ (addRelationship g rel).edgeList ↔
      p ∈ g.edgeList ∨ (rel.source = p.1 ∧ rel.destination = p.2 ∧
        rel.source ∈ g.nodeList ∧ rel.destination ∈ g.nodeList) := by
  unfold addRelationship
  by_cases hc : rel.source ∈ g.nodeList ∧ rel.destination ∈ g.nodeList
  · rw [if_pos hc]
    show p ∈ (if (rel.source, rel.destination) ∈
        (addEndpoint (addEndpoint g rel.source) rel.destination).edgeList then
        (addEndpoint (addEndpoint g rel.source) rel.destination).edgeList else
        (addEndpoint (addEndpoint g rel.source) rel.destination).edgeList ++
          [(rel.source, rel.destination)]) ↔ _
    have hedges : (addEndpoint (addEndpoint g rel.source) rel.destination).edgeList =
        g.edgeList := rfl
    rw [hedges]
    by_cases he : (rel.source, rel.destination) ∈ g.edgeList
    · rw [if_pos he]
      constructor
      · exact Or.inl
      · rintro (h | ⟨h1, h2, _, _⟩)
        · exact h
        · have : p = (rel.source, rel.destination) := by
            cases p
            simp only [Prod.mk.injEq]
            exact ⟨h1.symm, h2.symm⟩
          rw [this]
          exact he
    · rw [if_neg he]
      rw [List.mem_append, List.mem_singleton]
      constructor
      · rintro (h | h)
        · exact Or.inl h
        · refine Or.inr ⟨?_, ?_, hc.1, hc.2⟩ <;> rw [h]
      · rintro (h | ⟨h1, h2, _, _⟩)
        · exact Or.inl h
        · refine Or.inr ?_
          cases p
          simp only [Prod.mk.injEq]
          exact ⟨h1.symm, h2.symm⟩
  · rw [if_neg hc]
    constructor
    · exact Or.inl
    · rintro (h | ⟨_, _, h3, h4⟩)
      · exact h
      · exact absurd ⟨h3, h4⟩ hc

/-- Edge membership after the relationship loop: the starting edges plus
one edge per relationship whose endpoints are both nodes. -/
lemma mem_relFold_edgeList (rels : List Relationship) :
    ∀ (g : NxDiGraph) (p : String × String),
      p ∈ (rels.foldl addRelationship g).edgeList ↔
        p ∈ g.edgeList ∨ ∃ r ∈ rels, r.source = p.1 ∧ r.destination = p.2 ∧
          r.source ∈ g.nodeList ∧ r.destination ∈ g.nodeList := by
  induction rels with
  | nil => intro g p; simp
  | cons r rest ih =>
    intro g p
    rw [List.foldl_cons, ih, addRelationship_edgeList, addRelationship_nodeList]
    simp only [List.mem_cons]
    constructor
    · rintro ((h | h) | ⟨r', hr', h⟩)
      · exact Or.inl h
      · exact Or.inr ⟨r, Or.inl rfl, h⟩
      · exact Or.inr ⟨r', Or.inr hr', h⟩
    · rintro (h | ⟨r', hr' | hr', h⟩)
      · exact Or.inl (Or.inl h)
      · subst hr'
        exact Or.inl (Or.inr h)
      · exact Or.inr ⟨r', hr', h⟩

lemma addRelationship_edge_nodup (g : NxDiGraph) (rel : Relationship)
    (h : g.edgeList.Nodup) : (addRelationship g rel).edgeList.Nodup := by
  unfold addRelationship
  by_cases hc : rel.source ∈ g.nodeList ∧ rel.destination ∈ g.nodeList
  · rw [if_pos hc]
    show (if (rel.source, rel.destination) ∈ g.edgeList then g.edgeList else
      g.edgeList ++ [(rel.source, rel.destination)]).Nodup
    by_cases he : (rel.source, rel.destination) ∈ g.edgeList
    · rw [if_pos he]; exact h
    · rw [if_neg he]
      exact h.append (List.nodup_singleton _) (List.disjoint_singleton.2 he)
  · rw [if_neg hc]; exact h

lemma relFold_edge_nodup (rels : List Relationship) :
    ∀ g : NxDiGraph, g.edgeList.Nodup → (rels.foldl addRelationship g).edgeList.Nodup := by
  induction rels with
  | nil => intro g h; exact h
  | cons r rest ih =>
    intro g h
    exact ih _ (addRelationship_edge_nodup g r h)

lemma buildGraph_edge_nodup (data : DiagramData) : (buildGraph data).edgeList.Nodup := by
  unfold buildGraph
  refine relFold_edge_nodup data.relationships (addAllNodes data) ?_
  unfold addAllNodes
  rw [nodeFold_edgeList]
  exact List.nodup_nil

/-! ## C4: relationships with missing endpoints are silently dropped -/

/-- C4: adding a relationship whose source or destination id was never
registered as an element leaves the constructed graph unchanged — same
node list, the edge never appears, the edge count is unchanged — and the
edge count is at most the edge count of any construction that does
register both endpoints (same relationship list, enlarged element
set). -/
theorem droppedRelationship_spec (data : DiagramData) (rel : Relationship)
    (hbad : rel.source ∉ data.elements.map Prod.fst ∨
            rel.destination ∉ data.elements.map Prod.fst) :
    buildGraph { elements := data.elements, relationships := data.relationships ++ [rel] } = buildGraph data ∧
    (rel.source, rel.destination) ∉
      (buildGraph { elements := data.elements, relationships := data.relationships ++ [rel] }).edgeList ∧
    (buildGraph { elements := data.elements, relationships := data.relationships ++ [rel] }).edgeList.length =
      (buildGraph data).edgeList.length ∧
    ∀ data2 : DiagramData, data2.relationships = data.relationships ++ [rel] →
      (∀ x, x ∈ data.elements.map Prod.fst → x ∈ data2.elements.map Prod.fst) →
      rel.source ∈ data2.elements.map Prod.fst →
      rel.destination ∈ data2.elements.map Prod.fst →
      (buildGraph { elements := data.elements, relationships := data.relationships ++ [rel] }).edgeList.length ≤
        (buildGraph data2).edgeList.length := by
  have hguard : ¬(rel.source ∈ (buildGraph data).nodeList ∧
      rel.destination ∈ (buildGraph data).nodeList) := by
    rw [buildGraph_nodeList, buildGraph_nodeList]
    rcases hbad with h | h
    · exact fun hc => h hc.1
    · exact fun hc => h hc.2
  have heq : buildGraph { elements := data.elements, relationships := data.relationships ++ [rel] } = buildGraph data := by
    show (data.relationships ++ [rel]).foldl addRelationship (addAllNodes data) =
      buildGraph data
    rw [List.foldl_append]
    show addRelationship (buildGraph data) rel = buildGraph data
    unfold addRelationship
    rw [if_neg hguard]
  refine ⟨heq, ?_, by rw [heq], ?_⟩
  · intro hmem
    rw [heq] at hmem
    unfold buildGraph at hmem
    have h2 := (mem_relFold_edgeList data.relationships (addAllNodes data)
      (rel.source, rel.destination)).1 hmem
    rcases h2 with h2 | ⟨r, _, h1', h2', h3', h4'⟩
    · unfold addAllNodes at h2
      rw [nodeFold_edgeList] at h2
      cases h2
    · rw [mem_addAllNodes] at h3' h4'
      rcases hbad with hb | hb
      · rw [h1'] at h3'
        exact hb h3'
      · rw [h2'] at h4'
        exact hb h4'
  · intro data2 hrel hsub hsrc hdst
    rw [heq]
    have hn1 := buildGraph_edge_nodup data
    have hn2 := buildGraph_edge_nodup data2
    rw [← List.toFinset_card_of_nodup hn1, ← List.toFinset_card_of_nodup hn2]
    apply Finset.card_le_card
    intro p hp
    rw [List.mem_toFinset] at hp ⊢
    unfold buildGraph at hp ⊢
    have h2 := (mem_relFold_edgeList _ _ _).1 hp
    rcases h2 with h2 | ⟨r, hr, e1, e2, m1, m2⟩
    · unfold addAllNodes at h2
      rw [nodeFold_edgeList] at h2
      cases h2
    · apply (mem_relFold_edgeList _ _ _).2
      refine Or.inr ⟨r, ?_, e1, e2, ?_, ?_⟩
      · rw [hrel]
        exact List.mem_append_left _ hr
      · rw [mem_addAllNodes] at m1 ⊢
        exact hsub _ m1
      · rw [mem_addAllNodes] at m2 ⊢
        exact hsub _ m2

/-- Witness for C4: appending `a → zz` (with `zz` unregistered) to the
three-class diagram changes nothing, and registering `zz` as a fourth
element bounds the edge count from above. -/
theorem droppedRelationship_spec_witness :
    buildGraph { elements := exDataABC.elements, relationships := exDataABC.relationships ++ [mkRel "a" "zz" "dependency"] } =
      buildGraph exDataABC ∧
    ("a", "zz") ∉
      (buildGraph { elements := exDataABC.elements, relationships := exDataABC.relationships ++ [mkRel "a" "zz" "dependency"] }).edgeList ∧
    (buildGraph { elements := exDataABC.elements, relationships := exDataABC.relationships ++ [mkRel "a" "zz" "dependency"] }).edgeList.length ≤
      (buildGraph { elements := exDataABC.elements ++ [("zz", mkElem "Z" "app" 0)],
                    relationships :=
                      exDataABC.relationships ++ [mkRel "a" "zz" "dependency"] }).edgeList.length := by
  have h := droppedRelationship_spec exDataABC (mkRel "a" "zz" "dependency")
    (Or.inr (by decide))
  refine ⟨h.1, h.2.1, ?_⟩
  exact h.2.2.2
    { elements := exDataABC.elements ++ [("zz", mkElem "Z" "app" 0)],
      relationships := exDataABC.relationships ++ [mkRel "a" "zz" "dependency"] }
    rfl
    (by
      intro x hx
      rw [List.map_append]
      exact List.mem_append_left _ hx)
    (by decide)
    (by decide)
